import Mathlib

/-!
Verification of the coordinate and region logic of the Wplace SkirkMarble
art-extractor module (src/artExtractor.js).

JavaScript values are shallowly embedded:
* a coordinate array `[tileX, tileY, pixelX, pixelY]` becomes the structure
  `TileCoordinate` (integer-valued fields), and a possibly-`null` coordinate
  becomes `Option TileCoordinate`;
* raw setter arguments (which may be any JS value) become
  `Option (List Int)`: `none` models a non-array argument, `some l` an
  integer array of arbitrary length;
* JS strings become `JStr := List Char`;
* JS number arithmetic on coordinates is modelled over `Int`
  (all inputs of interest are integers).
-/

/-- A JS string, modelled as its list of characters. -/
abbrev JStr := List Char

/-- One pixel position on the tiled grid: `[tileX, tileY, pixelX, pixelY]`
in the source. -/
structure TileCoordinate where
  tileX : Int
  tileY : Int
  pixelX : Int
  pixelY : Int
deriving DecidableEq, Repr

/-- Result record of `validateCoordinateRange`: `{valid, error}`. -/
structure ValidationResult where
  valid : Bool
  error : Option String
deriving DecidableEq, Repr

/-- Result record of `calculateDimensions`: `{width, height, pixels}`. -/
structure Dimensions where
  width : Int
  height : Int
  pixels : Int
deriving DecidableEq, Repr

/-- Global X pixel coordinate: `from[0] * 1000 + from[2]` in the source. -/
def globalX (c : TileCoordinate) : Int :=
  c.tileX * 1000 + c.pixelX

/-- Global Y pixel coordinate: `from[1] * 1000 + from[3]` in the source. -/
def globalY (c : TileCoordinate) : Int :=
  c.tileY * 1000 + c.pixelY

/-- `validateCoordinateRange(from, to)` from src/artExtractor.js lines 60-86. -/
def validateCoordinateRange (f t : Option TileCoordinate) : ValidationResult :=
  match f, t with
  | none, _ => ⟨false, some "Both coordinates must be set"⟩
  | _, none => ⟨false, some "Both coordinates must be set"⟩
  | some f, some t =>
    let fromX := f.tileX * 1000 + f.pixelX
    let fromY := f.tileY * 1000 + f.pixelY
    let toX := t.tileX * 1000 + t.pixelX
    let toY := t.tileY * 1000 + t.pixelY
    if fromX > toX ∨ fromY > toY then
      ⟨false, some "\"From\" coordinates must be top-left of \"To\" coordinates"⟩
    else
      let width := toX - fromX + 1
      let height := toY - fromY + 1
      if width ≤ 0 ∨ height ≤ 0 then
        ⟨false, some "Invalid rectangle dimensions"⟩
      else if width > 10000 ∨ height > 10000 then
        ⟨false, some "Rectangle too large (max 10000x10000 pixels)"⟩
      else
        ⟨true, none⟩

/-- `calculateDimensions(from, to)` from src/artExtractor.js lines 88-106. -/
def calculateDimensions (f t : Option TileCoordinate) : Dimensions :=
  match f, t with
  | none, _ => ⟨0, 0, 0⟩
  | _, none => ⟨0, 0, 0⟩
  | some f, some t =>
    let fromX := f.tileX * 1000 + f.pixelX
    let fromY := f.tileY * 1000 + f.pixelY
    let toX := t.tileX * 1000 + t.pixelX
    let toY := t.tileY * 1000 + t.pixelY
    let width := max 0 (toX - fromX + 1)
    let height := max 0 (toY - fromY + 1)
    ⟨width, height, width * height⟩

/-- Spec-side validity condition, written from the claim: both coordinates
present, `from ≤ to` on both global axes, and inclusive width/height at most
10000. -/
def validRegionSpec (f t : Option TileCoordinate) : Bool :=
  match f, t with
  | some f, some t =>
    globalX f ≤ globalX t ∧ globalY f ≤ globalY t ∧
      globalX t - globalX f + 1 ≤ 10000 ∧ globalY t - globalY f + 1 ≤ 10000
  | _, _ => false

/-- Spec-side validation written over already-converted global coordinates,
used to show that `validateCoordinateRange` factors through
`global = tile * 1000 + local`. -/
def validateGlobalSpec (fromX fromY toX toY : Int) : ValidationResult :=
  if fromX > toX ∨ fromY > toY then
    ⟨false, some "\"From\" coordinates must be top-left of \"To\" coordinates"⟩
  else
    let width := toX - fromX + 1
    let height := toY - fromY + 1
    if width ≤ 0 ∨ height ≤ 0 then
      ⟨false, some "Invalid rectangle dimensions"⟩
    else if width > 10000 ∨ height > 10000 then
      ⟨false, some "Rectangle too large (max 10000x10000 pixels)"⟩
    else
      ⟨true, none⟩

/-- Spec-side dimension computation over already-converted global
coordinates. -/
def dimensionsGlobalSpec (fromX fromY toX toY : Int) : Dimensions :=
  let width := max 0 (toX - fromX + 1)
  let height := max 0 (toY - fromY + 1)
  ⟨width, height, width * height⟩

/-- The module state `extractorCoordinates = {from, to}`.  The raw stored
values are the integer arrays passed to the setters. -/
structure ExtractorState where
  fromCoord : Option (List Int)
  toCoord : Option (List Int)
deriving DecidableEq, Repr

/-- The initial module state: `{from: null, to: null}`. -/
def initialExtractorState : ExtractorState := ⟨none, none⟩

/-- `setFromCoordinates(coords)`: a non-array argument (`none`) or an array
whose length is not 4 is rejected with no state change; otherwise a copy of
the array is stored in `from`. -/
def setFromCoordinates (coords : Option (List Int)) (s : ExtractorState) : ExtractorState :=
  match coords with
  | none => s
  | some l => if l.length = 4 then { s with fromCoord := some l } else s

/-- `setToCoordinates(coords)`: same validation, stores into `to`. -/
def setToCoordinates (coords : Option (List Int)) (s : ExtractorState) : ExtractorState :=
  match coords with
  | none => s
  | some l => if l.length = 4 then { s with toCoord := some l } else s

/-- `clearExtractorCoordinates()`: resets both fields to null. -/
def clearExtractorCoordinates (_s : ExtractorState) : ExtractorState := ⟨none, none⟩

/-- The operations a client can perform on the module state. -/
inductive ExtractorOp where
  | setFrom (coords : Option (List Int))
  | setTo (coords : Option (List Int))
  | clear
deriving DecidableEq, Repr

/-- Apply one operation to the state. -/
def applyExtractorOp (s : ExtractorState) : ExtractorOp → ExtractorState
  | .setFrom c => setFromCoordinates c s
  | .setTo c => setToCoordinates c s
  | .clear => clearExtractorCoordinates s

/-- Run a sequence of operations from a starting state. -/
def runExtractorOps (ops : List ExtractorOp) (s : ExtractorState) : ExtractorState :=
  ops.foldl applyExtractorOp s

/-- View a stored 4-element array as a `TileCoordinate`. -/
def coordOfList : List Int → Option TileCoordinate
  | [a, b, c, d] => some ⟨a, b, c, d⟩
  | _ => none

/-- Default tile server URL used when `apiManager?.tileServerBase` is
falsy. -/
def defaultTileServerBase : String := "https://backend.wplace.live/files/s0/tiles"

/-- The slice of `apiManager` that `extractArt` reads. -/
structure ApiManager where
  tileServerBase : Option String
deriving DecidableEq, Repr

/-- `apiManager?.tileServerBase || default`: a null manager, a null field or
an empty (falsy) string all fall back to the default URL. -/
def resolveTileServerBase (api : Option ApiManager) : String :=
  match api with
  | none => defaultTileServerBase
  | some a =>
    match a.tileServerBase with
    | none => defaultTileServerBase
    | some s => if s = "" then defaultTileServerBase else s

/-- One invocation of `templateManager.buildTemplateAreaScreenshot`, recorded
as its three arguments. -/
structure ScreenshotCall where
  tileServerBase : String
  coords : Option TileCoordinate
  sizePx : Int × Int
deriving DecidableEq, Repr

/-- `extractArt(from, to, templateManager, apiManager)` from
src/artExtractor.js lines 108-125.  The template manager collaborator is a
function from the call arguments to either a thrown error or a blob; the
`try`/`catch` that rethrows the error is the identity on the `Except`. -/
def extractArt {Err Blob : Type}
    (buildTemplateAreaScreenshot : ScreenshotCall → Except Err Blob)
    (f t : Option TileCoordinate) (api : Option ApiManager) : Except Err Blob :=
  let dims := calculateDimensions f t
  buildTemplateAreaScreenshot ⟨resolveTileServerBase api, f, (dims.width, dims.height)⟩

/-- Decimal digit character for `n < 10`. -/
def digitChar (n : Nat) : Char := Char.ofNat ('0'.toNat + n)

/-- Numeric value of a digit list read left to right. -/
def digitsValue (l : List Char) : Nat :=
  l.foldl (fun a c => a * 10 + (c.toNat - '0'.toNat)) 0

/-- Decimal digit list of a natural number (fuel-based so that it reduces
inside the kernel). -/
def natDigitsAux : Nat → Nat → List Char
  | 0, _ => []
  | fuel + 1, n =>
    if n < 10 then [digitChar n]
    else natDigitsAux fuel (n / 10) ++ [digitChar (n % 10)]

/-- Decimal digit list of a natural number. -/
def natDigits (n : Nat) : List Char := natDigitsAux (n + 1) n

/-- JS `Number.prototype.toString` on an integer value. -/
def intToJStr (i : Int) : JStr :=
  if i < 0 then '-' :: natDigits (-i).toNat else natDigits i.toNat

/-- JS `padStart(4, '0')`. -/
def padStart4 (s : JStr) : JStr := List.replicate (4 - s.length) '0' ++ s

/-- JS `Array.prototype.join(', ')`. -/
def joinFields : List JStr → JStr
  | [] => []
  | [x] => x
  | x :: xs => x ++ ',' :: ' ' :: joinFields xs

/-- `formatCoordinates(coords)` from src/artExtractor.js lines 35-40: null,
a non-array or a wrong-length array gives the empty string; otherwise each
entry is rendered in decimal, left-padded to width 4 with `'0'`, and the four
fields are joined with `", "`. -/
def formatCoordinates (coords : Option (List Int)) : JStr :=
  match coords with
  | none => []
  | some l =>
    if l.length = 4 then joinFields (l.map (fun c => padStart4 (intToJStr c)))
    else []

/-- JS `String.prototype.split(',')`. -/
def splitOnComma : JStr → List JStr
  | [] => [[]]
  | c :: rest =>
    if c = ',' then [] :: splitOnComma rest
    else
      match splitOnComma rest with
      | [] => [[c]]
      | g :: gs => (c :: g) :: gs

/-- JS `String.prototype.trim()`. -/
def jsTrim (s : JStr) : JStr :=
  ((s.dropWhile Char.isWhitespace).reverse.dropWhile Char.isWhitespace).reverse

/-- Value of the leading run of digits; `none` (JS `NaN`) when the run is
empty. -/
def leadingDigitsVal (s : JStr) : Option Nat :=
  let d := s.takeWhile Char.isDigit
  if d.isEmpty then none else some (digitsValue d)

/-- JS `parseInt(s, 10)`: skip leading whitespace, an optional sign, then
take the longest digit run, ignoring any trailing characters; `NaN` (`none`)
when no digit follows. -/
def jsParseInt (s : JStr) : Option Int :=
  match s.dropWhile Char.isWhitespace with
  | [] => none
  | c :: rest =>
    if c = '-' then (leadingDigitsVal rest).map (fun n => -(n : Int))
    else if c = '+' then (leadingDigitsVal rest).map (fun n => (n : Int))
    else (leadingDigitsVal (c :: rest)).map (fun n => (n : Int))

/-- `parseCoordinates(coordString)` from src/artExtractor.js lines 42-58:
null, a non-string or the (falsy) empty string give null; the string is split
on `','`, the pieces trimmed and the empty ones dropped; unless exactly four
pieces remain the result is null; each piece is parsed with
`parseInt(p, 10)`, and null is returned when any piece parses to `NaN`. -/
def parseCoordinates (coordString : Option JStr) : Option (List Int) :=
  match coordString with
  | none => none
  | some s =>
    if s.isEmpty then none
    else
      let parts := ((splitOnComma s).map jsTrim).filter (fun p => !p.isEmpty)
      if parts.length ≠ 4 then none
      else
        let coords := parts.map jsParseInt
        if coords.any Option.isNone then none
        else some (coords.filterMap id)

/-- JS `Array.prototype.join(',')`. -/
def joinComma : List JStr → JStr
  | [] => []
  | [x] => x
  | x :: xs => x ++ ',' :: joinComma xs

/-- `coords.join(',')` on an integer array, the string the detector compares
against its snapshot. -/
def joinIntsComma (l : List Int) : JStr :=
  joinComma (l.map intToJStr)

/-- State of one coordinate-detection session
(src/artExtractor.js lines 127-196): the comma-joined snapshot of the
externally-owned coordinate value and the `isActive`/`hasDetected` flags. -/
structure DetectionSession where
  initialCoordsString : JStr
  isActive : Bool
  hasDetected : Bool
deriving DecidableEq, Repr

/-- `startCoordinateDetection`: snapshot `apiManager?.coordsTilePixel` as a
comma-joined string (a null manager or null value snapshots the empty
string) and start with `isActive = true`, `hasDetected = false`. -/
def startCoordinateDetection (coordsTilePixel : Option (List Int)) : DetectionSession :=
  ⟨match coordsTilePixel with
    | some c => joinIntsComma c
    | none => [],
   true, false⟩

/-- The events a session observes: a 100 ms interval poll of the current
externally-owned value, or an Escape keypress. -/
inductive DetectionEvent where
  | poll (coords : Option (List Int))
  | escape
deriving DecidableEq, Repr

/-- One event step.  Escape runs `cleanup` (deactivation) while the key
listener is installed.  A poll does nothing once the session is inactive or
has detected, skips a null or wrong-length value, and on the first polled
value whose comma-joined string differs from the snapshot sets
`hasDetected`, fires the callback (the `some` second component is the copied
argument passed to it) and cleans up. -/
def detectionStep (s : DetectionSession) :
    DetectionEvent → DetectionSession × Option (List Int)
  | .escape => if s.isActive then ({ s with isActive := false }, none) else (s, none)
  | .poll v =>
    if ¬s.isActive ∨ s.hasDetected then (s, none)
    else
      match v with
      | none => (s, none)
      | some c =>
        if c.length ≠ 4 then (s, none)
        else if joinIntsComma c ≠ s.initialCoordsString then
          ({ s with hasDetected := true, isActive := false }, some c)
        else (s, none)

/-- Callback invocations (in order) over a sequence of events. -/
def runDetection (s : DetectionSession) : List DetectionEvent → List (List Int)
  | [] => []
  | e :: es => ((detectionStep s e).2).toList ++ runDetection (detectionStep s e).1 es

/-- Session state after a sequence of events. -/
def runDetectionState (s : DetectionSession) : List DetectionEvent → DetectionSession
  | [] => s
  | e :: es => runDetectionState (detectionStep s e).1 es

/-- C1: `validateCoordinateRange` returns `{valid: true, error: null}` exactly
when both coordinates are non-null, `from ≤ to` holds on both global axes, and
the inclusive width and height are each at most 10000; in every other case it
returns `valid: false` with a non-null error message. -/
theorem validateCoordinateRange_valid_characterization :
    ∀ f t : Option TileCoordinate,
      (validateCoordinateRange f t = ⟨true, none⟩ ↔ validRegionSpec f t = true) ∧
      (validRegionSpec f t = false →
        (validateCoordinateRange f t).valid = false ∧
        (validateCoordinateRange f t).error ≠ none) := by
  intro f t
  cases f with
  | none => simp [validateCoordinateRange, validRegionSpec]
  | some fc =>
    cases t with
    | none => simp [validateCoordinateRange, validRegionSpec]
    | some tc =>
      simp only [validateCoordinateRange, validRegionSpec, globalX, globalY]
      split_ifs with h1 h2 h3
      · exact ⟨iff_of_false (by simp) (by simp only [decide_eq_true_eq]; omega),
          fun _ => ⟨rfl, by simp⟩⟩
      · exact ⟨iff_of_false (by simp) (by simp only [decide_eq_true_eq]; omega),
          fun _ => ⟨rfl, by simp⟩⟩
      · exact ⟨iff_of_false (by simp) (by simp only [decide_eq_true_eq]; omega),
          fun _ => ⟨rfl, by simp⟩⟩
      · refine ⟨iff_of_true rfl (by simp only [decide_eq_true_eq]; omega), fun hspec => ?_⟩
        simp only [decide_eq_false_iff_not] at hspec
        exact absurd (by omega) hspec

/-- C1 witness: a concrete inverted region is rejected with a non-null
error. -/
theorem validateCoordinateRange_valid_characterization_witness :
    (validateCoordinateRange (some ⟨1, 0, 0, 0⟩) (some ⟨0, 0, 0, 0⟩)).valid = false ∧
    (validateCoordinateRange (some ⟨1, 0, 0, 0⟩) (some ⟨0, 0, 0, 0⟩)).error ≠ none :=
  (validateCoordinateRange_valid_characterization
    (some ⟨1, 0, 0, 0⟩) (some ⟨0, 0, 0, 0⟩)).2 (by decide)

/-- C2: on a well-ordered region, `calculateDimensions` returns the inclusive
width `toGlobalX - fromGlobalX + 1`, the inclusive height
`toGlobalY - fromGlobalY + 1`, and `pixels = width * height`. -/
theorem calculateDimensions_inclusive :
    ∀ f t : TileCoordinate,
      globalX f ≤ globalX t → globalY f ≤ globalY t →
      calculateDimensions (some f) (some t) =
        ⟨globalX t - globalX f + 1, globalY t - globalY f + 1,
          (globalX t - globalX f + 1) * (globalY t - globalY f + 1)⟩ := by
  intro f t hx hy
  simp only [calculateDimensions, globalX, globalY] at *
  have hw : max 0 (t.tileX * 1000 + t.pixelX - (f.tileX * 1000 + f.pixelX) + 1)
      = t.tileX * 1000 + t.pixelX - (f.tileX * 1000 + f.pixelX) + 1 := by omega
  have hh : max 0 (t.tileY * 1000 + t.pixelY - (f.tileY * 1000 + f.pixelY) + 1)
      = t.tileY * 1000 + t.pixelY - (f.tileY * 1000 + f.pixelY) + 1 := by omega
  rw [hw, hh]

/-- C2 witness: from pixel (0,0) of tile (0,0) to pixel (2,999) of tile (0,1)
the region is 3 by 2000 pixels. -/
theorem calculateDimensions_inclusive_witness :
    calculateDimensions (some ⟨0, 0, 0, 0⟩) (some ⟨0, 1, 2, 999⟩) = ⟨3, 2000, 6000⟩ :=
  calculateDimensions_inclusive ⟨0, 0, 0, 0⟩ ⟨0, 1, 2, 999⟩ (by decide) (by decide)

/-- C3: both `validateCoordinateRange` and `calculateDimensions` interpret a
4-tuple through the conversion `global = tile * 1000 + local`, uniformly on
both axes: each factors through `globalX`/`globalY`. -/
theorem coordinate_conversion_uniform :
    ∀ f t : TileCoordinate,
      validateCoordinateRange (some f) (some t) =
        validateGlobalSpec (globalX f) (globalY f) (globalX t) (globalY t) ∧
      calculateDimensions (some f) (some t) =
        dimensionsGlobalSpec (globalX f) (globalY f) (globalX t) (globalY t) :=
  fun _ _ => ⟨rfl, rfl⟩

/-- C10: `calculateDimensions` is total with non-negative results: width and
height are always `≥ 0`, `pixels = width * height`, and a null argument on
either side yields `{width: 0, height: 0, pixels: 0}`. -/
theorem calculateDimensions_total_nonneg :
    ∀ f t : Option TileCoordinate,
      (0 ≤ (calculateDimensions f t).width ∧ 0 ≤ (calculateDimensions f t).height ∧
        (calculateDimensions f t).pixels =
          (calculateDimensions f t).width * (calculateDimensions f t).height) ∧
      calculateDimensions none t = ⟨0, 0, 0⟩ ∧
      calculateDimensions f none = ⟨0, 0, 0⟩ := by
  intro f t
  refine ⟨?_, ?_, ?_⟩
  · cases f with
    | none => simp [calculateDimensions]
    | some fc =>
      cases t with
      | none => simp [calculateDimensions]
      | some tc =>
        refine ⟨le_max_left 0 _, le_max_left 0 _, rfl⟩
  · cases t <;> rfl
  · cases f <;> rfl

/-- C4: `extractArt` computes the region's dimensions with
`calculateDimensions`, calls `buildTemplateAreaScreenshot` exactly once with
the resolved tile server base URL, the `from` coordinate and
`[width, height]`, and returns exactly what the collaborator returns (a
thrown error is propagated unchanged, an `ok` blob is returned unchanged);
instantiating the collaborator with a call recorder shows the call log of a
run is the singleton of that one call. -/
theorem extractArt_delegates :
    ∀ (Err Blob : Type) (tm : ScreenshotCall → Except Err Blob)
      (f t : Option TileCoordinate) (api : Option ApiManager),
      extractArt tm f t api =
        tm ⟨resolveTileServerBase api, f,
          ((calculateDimensions f t).width, (calculateDimensions f t).height)⟩ ∧
      extractArt (fun call => (Except.ok [call] : Except Err (List ScreenshotCall)))
          f t api =
        Except.ok [⟨resolveTileServerBase api, f,
          ((calculateDimensions f t).width, (calculateDimensions f t).height)⟩] :=
  fun _ _ _ _ _ _ => ⟨rfl, rfl⟩

/-- C5 counterexample: the setters do not enforce `from ≤ to`.  Setting
`from = [1,0,0,0]` then `to = [0,0,0,0]` leaves both set with the `from`
global X strictly greater than the `to` global X. -/
theorem extractor_invariant_counterexample :
    (runExtractorOps [.setFrom (some [1, 0, 0, 0]), .setTo (some [0, 0, 0, 0])]
        initialExtractorState).fromCoord = some [1, 0, 0, 0] ∧
    (runExtractorOps [.setFrom (some [1, 0, 0, 0]), .setTo (some [0, 0, 0, 0])]
        initialExtractorState).toCoord = some [0, 0, 0, 0] ∧
    ¬(globalX ⟨1, 0, 0, 0⟩ ≤ globalX ⟨0, 0, 0, 0⟩) := by
  refine ⟨rfl, rfl, ?_⟩
  decide

/-- C5 amended: the setters accept any 4-element array, so no `from ≤ to`
invariant holds of the raw state; the invariant holds exactly for pairs that
pass validation: after any sequence of operations, whenever both coordinates
are set and `validateCoordinateRange` accepts them, `from ≤ to` holds on both
global axes. -/
theorem extractor_invariant_validated :
    ∀ (ops : List ExtractorOp) (f t : List Int),
      (runExtractorOps ops initialExtractorState).fromCoord = some f →
      (runExtractorOps ops initialExtractorState).toCoord = some t →
      (validateCoordinateRange (coordOfList f) (coordOfList t)).valid = true →
      ∃ fc tc, coordOfList f = some fc ∧ coordOfList t = some tc ∧
        globalX fc ≤ globalX tc ∧ globalY fc ≤ globalY tc := by
  intro ops f t _ _ hvalid
  cases hfc : coordOfList f with
  | none => rw [hfc] at hvalid; simp [validateCoordinateRange] at hvalid
  | some fc =>
    cases htc : coordOfList t with
    | none => rw [hfc, htc] at hvalid; simp [validateCoordinateRange] at hvalid
    | some tc =>
      rw [hfc, htc] at hvalid
      refine ⟨fc, tc, rfl, rfl, ?_⟩
      simp only [validateCoordinateRange, globalX, globalY] at hvalid ⊢
      split_ifs at hvalid with h1 h2 h3
      omega

/-- C5 witness: a concrete run where both coordinates are set and validation
succeeds; the global ordering follows. -/
theorem extractor_invariant_validated_witness :
    ∃ fc tc, coordOfList [0, 0, 1, 2] = some fc ∧ coordOfList [0, 0, 5, 6] = some tc ∧
      globalX fc ≤ globalX tc ∧ globalY fc ≤ globalY tc :=
  extractor_invariant_validated
    [.setFrom (some [0, 0, 1, 2]), .setTo (some [0, 0, 5, 6])]
    [0, 0, 1, 2] [0, 0, 5, 6] rfl rfl (by decide)

/-- C9: each setter rejects a non-array or wrong-length argument with no
state change at all, and on a valid 4-element argument updates only its own
field with the argument's value, leaving the other field untouched. -/
theorem setters_frame_conditions :
    ∀ (s : ExtractorState) (arg : Option (List Int)),
      ((arg = none ∨ ∀ l, arg = some l → l.length ≠ 4) →
        setFromCoordinates arg s = s ∧ setToCoordinates arg s = s) ∧
      (∀ l, arg = some l → l.length = 4 →
        (setFromCoordinates arg s).fromCoord = some l ∧
        (setFromCoordinates arg s).toCoord = s.toCoord ∧
        (setToCoordinates arg s).toCoord = some l ∧
        (setToCoordinates arg s).fromCoord = s.fromCoord) := by
  intro s arg
  cases arg with
  | none => exact ⟨fun _ => ⟨rfl, rfl⟩, fun l hl => by cases hl⟩
  | some l =>
    constructor
    · intro hbad
      have hlen : l.length ≠ 4 := by
        cases hbad with
        | inl h => cases h
        | inr h => exact h l rfl
      simp [setFromCoordinates, setToCoordinates, hlen]
    · intro l' hl' hlen
      cases hl'
      simp [setFromCoordinates, setToCoordinates, hlen]

/-- C9 witness: a 3-element argument is rejected with no state change, and a
valid argument updates only its own field. -/
theorem setters_frame_conditions_witness :
    (setFromCoordinates (some [1, 2, 3]) ⟨some [0, 0, 0, 0], some [9, 9, 9, 9]⟩ =
        ⟨some [0, 0, 0, 0], some [9, 9, 9, 9]⟩ ∧
      setToCoordinates (some [1, 2, 3]) ⟨some [0, 0, 0, 0], some [9, 9, 9, 9]⟩ =
        ⟨some [0, 0, 0, 0], some [9, 9, 9, 9]⟩) ∧
    (setFromCoordinates (some [5, 6, 7, 8]) ⟨some [0, 0, 0, 0], some [9, 9, 9, 9]⟩).fromCoord
        = some [5, 6, 7, 8] ∧
    (setFromCoordinates (some [5, 6, 7, 8]) ⟨some [0, 0, 0, 0], some [9, 9, 9, 9]⟩).toCoord
        = some [9, 9, 9, 9] ∧
    (setToCoordinates (some [5, 6, 7, 8]) ⟨some [0, 0, 0, 0], some [9, 9, 9, 9]⟩).toCoord
        = some [5, 6, 7, 8] ∧
    (setToCoordinates (some [5, 6, 7, 8]) ⟨some [0, 0, 0, 0], some [9, 9, 9, 9]⟩).fromCoord
        = some [0, 0, 0, 0] :=
  ⟨(setters_frame_conditions ⟨some [0, 0, 0, 0], some [9, 9, 9, 9]⟩ (some [1, 2, 3])).1
      (Or.inr (fun l hl => by cases hl; decide)),
    (setters_frame_conditions ⟨some [0, 0, 0, 0], some [9, 9, 9, 9]⟩ (some [5, 6, 7, 8])).2
      [5, 6, 7, 8] rfl rfl⟩

theorem digitChar_isDigit {n : Nat} (h : n < 10) : (digitChar n).isDigit = true := by
  interval_cases n <;> decide

theorem digitChar_val {n : Nat} (h : n < 10) : (digitChar n).toNat - '0'.toNat = n := by
  interval_cases n <;> decide

theorem digitsValue_append_single (l : List Char) (c : Char) :
    digitsValue (l ++ [c]) = digitsValue l * 10 + (c.toNat - '0'.toNat) := by
  simp [digitsValue, List.foldl_append]

theorem natDigitsAux_spec :
    ∀ fuel n, n < fuel →
      natDigitsAux fuel n ≠ [] ∧ (∀ c ∈ natDigitsAux fuel n, c.isDigit = true) ∧
        digitsValue (natDigitsAux fuel n) = n := by
  intro fuel
  induction fuel with
  | zero => intro n h; omega
  | succ fuel ih =>
    intro n h
    by_cases h10 : n < 10
    · refine ⟨by simp [natDigitsAux, h10], ?_, ?_⟩
      · intro c hc
        simp only [natDigitsAux, if_pos h10, List.mem_singleton] at hc
        rw [hc]
        exact digitChar_isDigit h10
      · simp only [natDigitsAux, if_pos h10, digitsValue, List.foldl_cons, List.foldl_nil,
          Nat.zero_mul, Nat.zero_add]
        exact digitChar_val h10
    · have hdiv : n / 10 < fuel := by omega
      obtain ⟨hne, hdig, hval⟩ := ih (n / 10) hdiv
      refine ⟨?_, ?_, ?_⟩
      · simp [natDigitsAux, h10]
      · intro c hc
        simp only [natDigitsAux, if_neg h10, List.mem_append, List.mem_singleton] at hc
        rcases hc with hc | hc
        · exact hdig c hc
        · rw [hc]
          exact digitChar_isDigit (Nat.mod_lt n (by omega))
      · simp only [natDigitsAux, if_neg h10]
        rw [digitsValue_append_single, hval, digitChar_val (Nat.mod_lt n (by omega))]
        omega

theorem natDigits_spec (n : Nat) :
    natDigits n ≠ [] ∧ (∀ c ∈ natDigits n, c.isDigit = true) ∧
      digitsValue (natDigits n) = n :=
  natDigitsAux_spec (n + 1) n (Nat.lt_succ_self n)

theorem digitsValue_replicate_zero (k : Nat) (l : List Char) :
    digitsValue (List.replicate k '0' ++ l) = digitsValue l := by
  induction k with
  | zero => rfl
  | succ k ih =>
    have h0 : digitsValue (List.replicate (k + 1) '0' ++ l) =
        digitsValue (List.replicate k '0' ++ l) := by
      simp [List.replicate_succ, digitsValue]
    rw [h0, ih]

theorem isDigit_ne_comma {c : Char} (h : c.isDigit = true) : c ≠ ',' := by
  intro he
  rw [he] at h
  exact absurd h (by decide)

theorem isDigit_ne_minus {c : Char} (h : c.isDigit = true) : c ≠ '-' := by
  intro he
  rw [he] at h
  exact absurd h (by decide)

theorem isDigit_ne_plus {c : Char} (h : c.isDigit = true) : c ≠ '+' := by
  intro he
  rw [he] at h
  exact absurd h (by decide)

theorem isDigit_not_ws {c : Char} (h : c.isDigit = true) : c.isWhitespace = false := by
  cases hw : c.isWhitespace
  · rfl
  · exfalso
    simp only [Char.isWhitespace, Bool.or_eq_true, decide_eq_true_eq] at hw
    rcases hw with ((h1 | h1) | h1) | h1 <;> subst h1 <;> exact absurd h (by decide)

theorem dropWhile_ws_digits (l : JStr) (h : ∀ c ∈ l, c.isDigit = true) :
    l.dropWhile Char.isWhitespace = l := by
  cases l with
  | nil => rfl
  | cons c rest =>
    have hc : c.isWhitespace = false := isDigit_not_ws (h c (List.mem_cons_self c rest))
    simp [List.dropWhile_cons, hc]

theorem takeWhile_digits (l : JStr) (h : ∀ c ∈ l, c.isDigit = true) :
    l.takeWhile Char.isDigit = l := by
  induction l with
  | nil => rfl
  | cons c rest ih =>
    have hc : c.isDigit = true := h c (List.mem_cons_self c rest)
    simp only [List.takeWhile_cons, hc, if_true]
    rw [ih (fun x hx => h x (List.mem_cons_of_mem c hx))]

theorem jsTrim_digits {l : JStr} (h : ∀ c ∈ l, c.isDigit = true) : jsTrim l = l := by
  unfold jsTrim
  rw [dropWhile_ws_digits l h,
    dropWhile_ws_digits l.reverse (fun c hc => h c (List.mem_reverse.mp hc)),
    List.reverse_reverse]

theorem jsTrim_space_cons (l : JStr) : jsTrim (' ' :: l) = jsTrim l := by
  unfold jsTrim
  have hdrop : (' ' :: l).dropWhile Char.isWhitespace = l.dropWhile Char.isWhitespace := by
    simp [List.dropWhile_cons]
  rw [hdrop]

theorem splitOnComma_comma_free :
    ∀ (A : JStr), (∀ c ∈ A, c ≠ ',') → splitOnComma A = [A] := by
  intro A
  induction A with
  | nil => intro _; rfl
  | cons c rest ih =>
    intro h
    have hc : c ≠ ',' := h c (List.mem_cons_self c rest)
    have hrest := ih (fun x hx => h x (List.mem_cons_of_mem c hx))
    simp only [splitOnComma, if_neg hc, hrest]

theorem splitOnComma_append :
    ∀ (A B : JStr), (∀ c ∈ A, c ≠ ',') →
      splitOnComma (A ++ ',' :: B) = A :: splitOnComma B := by
  intro A
  induction A with
  | nil => intro B _; simp [splitOnComma]
  | cons c rest ih =>
    intro B h
    have hc : c ≠ ',' := h c (List.mem_cons_self c rest)
    have hrest := ih B (fun x hx => h x (List.mem_cons_of_mem c hx))
    simp only [List.cons_append, splitOnComma, if_neg hc, List.append_eq, hrest]

theorem isEmpty_false_of_ne_nil {l : JStr} (h : l ≠ []) : l.isEmpty = false := by
  cases l with
  | nil => exact absurd rfl h
  | cons _ _ => rfl

theorem jsParseInt_all_digits {l : JStr} (hne : l ≠ []) (hd : ∀ c ∈ l, c.isDigit = true) :
    jsParseInt l = some ((digitsValue l : Nat) : Int) := by
  cases l with
  | nil => exact absurd rfl hne
  | cons c rest =>
    have hcd : c.isDigit = true := hd c (List.mem_cons_self c rest)
    have hdrop : (c :: rest).dropWhile Char.isWhitespace = c :: rest :=
      dropWhile_ws_digits _ hd
    simp only [jsParseInt, hdrop]
    rw [if_neg (isDigit_ne_minus hcd), if_neg (isDigit_ne_plus hcd)]
    simp only [leadingDigitsVal, takeWhile_digits _ hd, List.isEmpty_cons, Bool.false_eq_true,
      if_false, Option.map_some]
    rfl

theorem intToJStr_nonneg {i : Int} (h : 0 ≤ i) : intToJStr i = natDigits i.toNat := by
  unfold intToJStr
  rw [if_neg (by omega)]

theorem padded_field_spec (i : Int) (h : 0 ≤ i) :
    padStart4 (intToJStr i) ≠ [] ∧
      (∀ c ∈ padStart4 (intToJStr i), c.isDigit = true) ∧
      digitsValue (padStart4 (intToJStr i)) = i.toNat := by
  obtain ⟨hne, hdig, hval⟩ := natDigits_spec i.toNat
  rw [intToJStr_nonneg h]
  unfold padStart4
  refine ⟨?_, ?_, ?_⟩
  · intro hnil
    exact hne (List.append_eq_nil.mp hnil).2
  · intro c hc
    rcases List.mem_append.mp hc with hc | hc
    · rw [List.eq_of_mem_replicate hc]
      decide
    · exact hdig c hc
  · rw [digitsValue_replicate_zero, hval]

theorem jsParseInt_field (i : Int) (h : 0 ≤ i) :
    jsParseInt (padStart4 (intToJStr i)) = some i := by
  obtain ⟨hne, hdig, hval⟩ := padded_field_spec i h
  rw [jsParseInt_all_digits hne hdig, hval, Int.toNat_of_nonneg h]

theorem filterMap_id_length {α : Type} :
    ∀ L : List (Option α), L.any Option.isNone = false →
      (L.filterMap id).length = L.length := by
  intro L
  induction L with
  | nil => intro _; rfl
  | cons o rest ih =>
    intro h
    simp only [List.any_cons, Bool.or_eq_false_iff] at h
    cases o with
    | none => exact Bool.noConfusion h.1
    | some x =>
      simp only [List.filterMap_cons, id, List.length_cons]
      rw [ih h.2]

/-- C8: formatting a 4-element array of non-negative integers with
`formatCoordinates` and parsing the result back with `parseCoordinates` is
the identity. -/
theorem parse_format_roundtrip :
    ∀ a b c d : Int, 0 ≤ a → 0 ≤ b → 0 ≤ c → 0 ≤ d →
      parseCoordinates (some (formatCoordinates (some [a, b, c, d]))) =
        some [a, b, c, d] := by
  intro a b c d ha hb hc hd
  obtain ⟨haN, haD, _⟩ := padded_field_spec a ha
  obtain ⟨hbN, hbD, _⟩ := padded_field_spec b hb
  obtain ⟨hcN, hcD, _⟩ := padded_field_spec c hc
  obtain ⟨hdN, hdD, _⟩ := padded_field_spec d hd
  have hfmt : formatCoordinates (some [a, b, c, d]) =
      padStart4 (intToJStr a) ++ ',' :: ' ' :: (padStart4 (intToJStr b) ++ ',' :: ' ' ::
        (padStart4 (intToJStr c) ++ ',' :: ' ' :: padStart4 (intToJStr d))) := rfl
  have cfa : ∀ x ∈ padStart4 (intToJStr a), x ≠ ',' :=
    fun x hx => isDigit_ne_comma (haD x hx)
  have cfb : ∀ x ∈ (' ' :: padStart4 (intToJStr b)), x ≠ ',' := by
    intro x hx
    rcases List.mem_cons.mp hx with h1 | h1
    · rw [h1]; decide
    · exact isDigit_ne_comma (hbD x h1)
  have cfc : ∀ x ∈ (' ' :: padStart4 (intToJStr c)), x ≠ ',' := by
    intro x hx
    rcases List.mem_cons.mp hx with h1 | h1
    · rw [h1]; decide
    · exact isDigit_ne_comma (hcD x h1)
  have cfd : ∀ x ∈ (' ' :: padStart4 (intToJStr d)), x ≠ ',' := by
    intro x hx
    rcases List.mem_cons.mp hx with h1 | h1
    · rw [h1]; decide
    · exact isDigit_ne_comma (hdD x h1)
  have e2 : splitOnComma (' ' :: (padStart4 (intToJStr b) ++ ',' :: ' ' ::
        (padStart4 (intToJStr c) ++ ',' :: ' ' :: padStart4 (intToJStr d)))) =
      (' ' :: padStart4 (intToJStr b)) :: splitOnComma (' ' ::
        (padStart4 (intToJStr c) ++ ',' :: ' ' :: padStart4 (intToJStr d))) :=
    splitOnComma_append (' ' :: padStart4 (intToJStr b))
      (' ' :: (padStart4 (intToJStr c) ++ ',' :: ' ' :: padStart4 (intToJStr d))) cfb
  have e3 : splitOnComma (' ' :: (padStart4 (intToJStr c) ++ ',' :: ' ' ::
        padStart4 (intToJStr d))) =
      (' ' :: padStart4 (intToJStr c)) :: splitOnComma (' ' :: padStart4 (intToJStr d)) :=
    splitOnComma_append (' ' :: padStart4 (intToJStr c))
      (' ' :: padStart4 (intToJStr d)) cfc
  have e4 : splitOnComma (' ' :: padStart4 (intToJStr d)) =
      [' ' :: padStart4 (intToJStr d)] :=
    splitOnComma_comma_free _ cfd
  have hsplit : splitOnComma (formatCoordinates (some [a, b, c, d])) =
      [padStart4 (intToJStr a), ' ' :: padStart4 (intToJStr b),
        ' ' :: padStart4 (intToJStr c), ' ' :: padStart4 (intToJStr d)] := by
    rw [hfmt, splitOnComma_append _ _ cfa, e2, e3, e4]
  have htrim : ([padStart4 (intToJStr a), ' ' :: padStart4 (intToJStr b),
        ' ' :: padStart4 (intToJStr c), ' ' :: padStart4 (intToJStr d)].map jsTrim) =
      [padStart4 (intToJStr a), padStart4 (intToJStr b),
        padStart4 (intToJStr c), padStart4 (intToJStr d)] := by
    simp only [List.map_cons, List.map_nil, jsTrim_space_cons]
    rw [jsTrim_digits haD, jsTrim_digits hbD, jsTrim_digits hcD, jsTrim_digits hdD]
  have hfilter : ([padStart4 (intToJStr a), padStart4 (intToJStr b),
        padStart4 (intToJStr c), padStart4 (intToJStr d)].filter (fun p => !p.isEmpty)) =
      [padStart4 (intToJStr a), padStart4 (intToJStr b),
        padStart4 (intToJStr c), padStart4 (intToJStr d)] := by
    simp only [List.filter_cons, isEmpty_false_of_ne_nil haN, isEmpty_false_of_ne_nil hbN,
      isEmpty_false_of_ne_nil hcN, isEmpty_false_of_ne_nil hdN, Bool.not_false, if_true,
      List.filter_nil]
  have hSne : formatCoordinates (some [a, b, c, d]) ≠ [] := by
    rw [hfmt]
    simp
  simp only [parseCoordinates, isEmpty_false_of_ne_nil hSne, Bool.false_eq_true, if_false,
    hsplit, htrim, hfilter, List.length_cons, List.length_nil, List.map_cons, List.map_nil,
    jsParseInt_field a ha, jsParseInt_field b hb, jsParseInt_field c hc, jsParseInt_field d hd]
  simp [List.filterMap_cons]

/-- C8 witness: the concrete array `[0, 0, 12345, 7]` survives the
format-then-parse round trip (note the 5-digit entry is not truncated by the
padding). -/
theorem parse_format_roundtrip_witness :
    parseCoordinates (some (formatCoordinates (some [0, 0, 12345, 7]))) =
      some [0, 0, 12345, 7] :=
  parse_format_roundtrip 0 0 12345 7 (by decide) (by decide) (by decide) (by decide)

/-- C6 counterexample: `parseCoordinates` performs no range check on local
components: on the string `"0, 0, 5000, 0"` it returns `[0, 0, 5000, 0]`,
whose local X component 5000 is outside `[0, 999]`. -/
theorem parseCoordinates_local_range_counterexample :
    parseCoordinates (some ("0, 0, 5000, 0".toList)) = some [0, 0, 5000, 0] ∧
    ¬((5000 : Int) ≤ 999) :=
  ⟨by decide, by decide⟩

/-- C6 amended: `parseCoordinates` either returns null or returns a 4-element
integer array; the local components are parsed but not range-checked, so
values outside `[0, 999]` can be returned. -/
theorem parseCoordinates_shape :
    ∀ s : Option JStr,
      parseCoordinates s = none ∨
        ∃ l, parseCoordinates s = some l ∧ l.length = 4 := by
  intro s
  cases s with
  | none => exact Or.inl rfl
  | some str =>
    simp only [parseCoordinates]
    by_cases hie : str.isEmpty = true
    · rw [if_pos hie]
      exact Or.inl rfl
    · rw [if_neg hie]
      by_cases hlen :
          (((splitOnComma str).map jsTrim).filter (fun p => !p.isEmpty)).length ≠ 4
      · rw [if_pos hlen]
        exact Or.inl rfl
      · rw [if_neg hlen]
        by_cases hnone :
            ((((splitOnComma str).map jsTrim).filter (fun p => !p.isEmpty)).map
              jsParseInt).any Option.isNone = true
        · rw [if_pos hnone]
          exact Or.inl rfl
        · rw [if_neg hnone]
          refine Or.inr ⟨_, rfl, ?_⟩
          rw [filterMap_id_length _ (Bool.eq_false_iff.mpr hnone), List.length_map]
          omega

theorem detectionStep_initialCoords (s : DetectionSession) (e : DetectionEvent) :
    (detectionStep s e).1.initialCoordsString = s.initialCoordsString := by
  cases e with
  | escape =>
    simp only [detectionStep]
    split_ifs <;> rfl
  | poll v =>
    cases v with
    | none =>
      simp only [detectionStep]
      split_ifs <;> rfl
    | some c =>
      simp only [detectionStep]
      split_ifs <;> rfl

theorem detectionStep_dead (s : DetectionSession) (e : DetectionEvent)
    (h : s.isActive = false) : detectionStep s e = (s, none) := by
  cases e with
  | escape => simp [detectionStep, h]
  | poll v => cases v <;> simp [detectionStep, h]

theorem runDetection_dead :
    ∀ (evs : List DetectionEvent) (s : DetectionSession),
      s.isActive = false → runDetection s evs = [] := by
  intro evs
  induction evs with
  | nil => intro s _; rfl
  | cons e es ih =>
    intro s h
    rw [runDetection, detectionStep_dead s e h]
    simpa using ih s h

theorem detectionStep_detected (s : DetectionSession) (e : DetectionEvent)
    (h : s.hasDetected = true) :
    (detectionStep s e).2 = none ∧ (detectionStep s e).1.hasDetected = true := by
  cases e with
  | escape => by_cases hA : s.isActive <;> simp [detectionStep, hA, h]
  | poll v => cases v <;> simp [detectionStep, h]

theorem runDetection_detected :
    ∀ (evs : List DetectionEvent) (s : DetectionSession),
      s.hasDetected = true → runDetection s evs = [] := by
  intro evs
  induction evs with
  | nil => intro s _; rfl
  | cons e es ih =>
    intro s h
    obtain ⟨h2, h1⟩ := detectionStep_detected s e h
    rw [runDetection, h2]
    simpa using ih _ h1

theorem detectionStep_emit (s : DetectionSession) (e : DetectionEvent) (c : List Int)
    (h : (detectionStep s e).2 = some c) :
    (detectionStep s e).1.hasDetected = true ∧
      joinIntsComma c ≠ s.initialCoordsString ∧ c.length = 4 := by
  cases e with
  | escape => by_cases hA : s.isActive <;> simp [detectionStep, hA] at h
  | poll v =>
    cases v with
    | none => simp [detectionStep, ite_self] at h
    | some cc =>
      simp only [detectionStep] at h ⊢
      split_ifs at h ⊢ with h1 h2 h3
      injection h with hcc
      subst hcc
      exact ⟨rfl, h3, by omega⟩

theorem detectionStep_escape (s : DetectionSession) :
    (detectionStep s .escape).2 = none ∧ (detectionStep s .escape).1.isActive = false := by
  by_cases hA : s.isActive <;> simp [detectionStep, hA]

theorem runDetection_append :
    ∀ (l1 l2 : List DetectionEvent) (s : DetectionSession),
      runDetection s (l1 ++ l2) =
        runDetection s l1 ++ runDetection (runDetectionState s l1) l2 := by
  intro l1
  induction l1 with
  | nil => intro l2 s; rfl
  | cons e es ih =>
    intro l2 s
    simp only [List.cons_append, List.append_eq, runDetection, runDetectionState, ih,
      List.append_assoc]

theorem runDetection_length :
    ∀ (evs : List DetectionEvent) (s : DetectionSession),
      (runDetection s evs).length ≤ 1 := by
  intro evs
  induction evs with
  | nil => intro s; simp [runDetection]
  | cons e es ih =>
    intro s
    rw [runDetection]
    cases hout : (detectionStep s e).2 with
    | none => simpa using ih _
    | some c =>
      have hdet := (detectionStep_emit s e c hout).1
      rw [runDetection_detected es _ hdet]
      simp [Option.toList]

theorem runDetection_mem :
    ∀ (evs : List DetectionEvent) (s : DetectionSession) (c : List Int),
      c ∈ runDetection s evs →
        joinIntsComma c ≠ s.initialCoordsString ∧ c.length = 4 := by
  intro evs
  induction evs with
  | nil => intro s c hc; exact absurd hc (List.not_mem_nil c)
  | cons e es ih =>
    intro s c hc
    rw [runDetection] at hc
    rcases List.mem_append.mp hc with hc | hc
    · cases hout : (detectionStep s e).2 with
      | none => rw [hout] at hc; exact absurd hc (List.not_mem_nil c)
      | some c0 =>
        rw [hout] at hc
        have hcc : c = c0 := by simpa using hc
        subst hcc
        obtain ⟨_, hne, hlen⟩ := detectionStep_emit s e c hout
        exact ⟨hne, hlen⟩
    · obtain ⟨hne, hlen⟩ := ih _ c hc
      rw [detectionStep_initialCoords s e] at hne
      exact ⟨hne, hlen⟩

/-- C7: a detection session invokes its callback at most once; every value it
passes to the callback differs, as a comma-joined string, from the snapshot
taken when detection started; and once Escape is observed no event after it
produces any callback invocation. -/
theorem detection_session_at_most_once :
    ∀ (initC : Option (List Int)) (evs : List DetectionEvent),
      (runDetection (startCoordinateDetection initC) evs).length ≤ 1 ∧
      (∀ c ∈ runDetection (startCoordinateDetection initC) evs,
        joinIntsComma c ≠ (startCoordinateDetection initC).initialCoordsString) ∧
      (∀ pre post, evs = pre ++ DetectionEvent.escape :: post →
        runDetection (startCoordinateDetection initC) evs =
          runDetection (startCoordinateDetection initC) pre) := by
  intro initC evs
  refine ⟨runDetection_length evs _, ?_, ?_⟩
  · intro c hc
    exact (runDetection_mem evs _ c hc).1
  · intro pre post hevs
    subst hevs
    rw [runDetection_append]
    have h1 : runDetection (runDetectionState (startCoordinateDetection initC) pre)
        (DetectionEvent.escape :: post) = [] := by
      obtain ⟨h2, hact⟩ :=
        detectionStep_escape (runDetectionState (startCoordinateDetection initC) pre)
      rw [runDetection, h2, runDetection_dead post _ hact]
      rfl
    rw [h1, List.append_nil]

/-- C7 witness: a concrete session where a poll fires the callback, and a
concrete session where everything after an Escape is ignored. -/
theorem detection_session_at_most_once_witness :
    (runDetection (startCoordinateDetection (some [0, 0, 0, 0]))
        [DetectionEvent.poll (some [2, 3, 4, 5]), DetectionEvent.escape,
          DetectionEvent.poll (some [6, 7, 8, 9])]).length ≤ 1 ∧
    joinIntsComma [2, 3, 4, 5] ≠
      (startCoordinateDetection (some [0, 0, 0, 0])).initialCoordsString ∧
    runDetection (startCoordinateDetection (some [0, 0, 0, 0]))
        [DetectionEvent.poll (some [2, 3, 4, 5]), DetectionEvent.escape,
          DetectionEvent.poll (some [6, 7, 8, 9])] =
      runDetection (startCoordinateDetection (some [0, 0, 0, 0]))
        [DetectionEvent.poll (some [2, 3, 4, 5])] :=
  ⟨(detection_session_at_most_once (some [0, 0, 0, 0])
      [DetectionEvent.poll (some [2, 3, 4, 5]), DetectionEvent.escape,
        DetectionEvent.poll (some [6, 7, 8, 9])]).1,
    (detection_session_at_most_once (some [0, 0, 0, 0])
      [DetectionEvent.poll (some [2, 3, 4, 5])]).2.1 [2, 3, 4, 5] (by decide),
    (detection_session_at_most_once (some [0, 0, 0, 0])
      [DetectionEvent.poll (some [2, 3, 4, 5]), DetectionEvent.escape,
        DetectionEvent.poll (some [6, 7, 8, 9])]).2.2
      [DetectionEvent.poll (some [2, 3, 4, 5])]
      [DetectionEvent.poll (some [6, 7, 8, 9])] rfl⟩
